import Mathlib

/-!
Verification of the `send` repository (ephemeral secret-sharing service).

Shallow embedding of the Go sources:
  * package `encrypt` (src/encrypt/encrypt.go) and `encrypt/text`,
  * package `db` (src/unnamed/part_017, src/db/db.go),
  * package `handle` (src/handle/file.go, api.go, upload.go, handle.go,
    src/unnamed/part_009),
  * package `cfg` (src/unnamed/part_020).

Byte strings are `List Nat` (each element a byte, or a character code for
hex-encoded text).  Go `string` fields of `db.Item` are byte strings; the
empty Go string is `[]`.  Machine integers that can go negative (SQL
counters) are `Int`.  The Go `error` results are `Except Err`.  Abstract
cryptographic primitives (the AES block function, the PBKDF2 PRF, the
SHAKE-256 XOF, the KDF) are explicit function parameters, since their
bit-level definitions are outside the repository.
-/

namespace Send

/-- Typed errors of the embedded code, mirroring the Go error values
(`text.EmptyError`, hex decode errors, short cipher block, `failed secret`,
`sql.ErrNoRows`, `ErrNoAttempts`, `ErrDecrement`, missing blob, writer
failure). -/
inductive Err where
  | emptyText
  | hexError
  | cipherLength
  | secret
  | noRows
  | noAttempts
  | decrementFailed
  | blobMissing
  | writeFailed
  | metaDecode
  deriving DecidableEq, Repr

/-- Value of a lowercase hex digit, as produced by Go `hex.EncodeToString`
("0123456789abcdef"): 0..9 map to char codes 48..57, 10..15 to 97..102. -/
def hexDigitChar (n : Nat) : Nat :=
  if n < 10 then 48 + n else 87 + n

/-- Inverse digit lookup used by Go `hex.DecodeString`, which accepts
lowercase and uppercase digits. -/
def hexDigitVal (c : Nat) : Option Nat :=
  if 48 ≤ c ∧ c ≤ 57 then some (c - 48)
  else if 97 ≤ c ∧ c ≤ 102 then some (c - 87)
  else if 65 ≤ c ∧ c ≤ 70 then some (c - 55)
  else none

/-- Embedding of Go `hex.EncodeToString`: every byte becomes two lowercase
hex digit characters. -/
def hexEncode : List Nat → List Nat
  | [] => []
  | x :: xs => hexDigitChar (x / 16) :: hexDigitChar (x % 16) :: hexEncode xs

/-- Embedding of Go `hex.DecodeString`: pairs of hex digit characters become
bytes; an odd length or an invalid digit fails. -/
def hexDecode : List Nat → Option (List Nat)
  | [] => some []
  | [_] => none
  | c1 :: c2 :: rest =>
    match hexDigitVal c1, hexDigitVal c2, hexDecode rest with
    | some h, some l, some r => some ((h * 16 + l) :: r)
    | _, _, _ => none

theorem hexDigitVal_hexDigitChar (n : Nat) (h : n < 16) :
    hexDigitVal (hexDigitChar n) = some n := by
  interval_cases n <;> rfl

theorem hexDecode_hexEncode (b : List Nat) (hb : ∀ x ∈ b, x < 256) :
    hexDecode (hexEncode b) = some b := by
  induction b with
  | nil => rfl
  | cons x xs ih =>
    have hx : x < 256 := hb x (by simp)
    have hhi : x / 16 < 16 := by omega
    have hlo : x % 16 < 16 := by omega
    have hxs : ∀ y ∈ xs, y < 256 := fun y hy => hb y (by simp [hy])
    simp only [hexEncode, hexDecode, hexDigitVal_hexDigitChar _ hhi,
      hexDigitVal_hexDigitChar _ hlo, ih hxs]
    have : x / 16 * 16 + x % 16 = x := by omega
    simp [this]

theorem hexEncode_length (b : List Nat) : (hexEncode b).length = 2 * b.length := by
  induction b with
  | nil => rfl
  | cons x xs ih => simp [hexEncode, ih]; omega

/-- Go `aes.BlockSize`. -/
def aesBlockSize : Nat := 16

/-- Embedding of Go `cipher.NewCFBEncrypter(block, iv).XORKeyStream` applied
to a whole message: the keystream for each 16-byte chunk is the block
encryption `E` of the previous ciphertext chunk (initially the IV), XORed
into the plaintext; the produced ciphertext chunk becomes the next
register.  `E` is the AES-256 forward block function for the session key. -/
def cfbEncryptA (E : List Nat → List Nat) : Nat → List Nat → List Nat → List Nat
  | 0, _, _ => []
  | fuel + 1, reg, p =>
    if p = [] then []
    else
      (List.zipWith (· ^^^ ·) (p.take aesBlockSize) (E reg)) ++
        cfbEncryptA E fuel (List.zipWith (· ^^^ ·) (p.take aesBlockSize) (E reg))
          (p.drop aesBlockSize)

/-- CFB encryption of a whole message, with the recursion fuelled by the
message length (each step consumes a 16-byte chunk). -/
def cfbEncrypt (E : List Nat → List Nat) (reg p : List Nat) : List Nat :=
  cfbEncryptA E p.length reg p

/-- Embedding of `cipher.NewCFBDecrypter(block, iv).XORKeyStream` applied to
a whole message: identical keystream, but the register is fed from the
incoming ciphertext chunks. -/
def cfbDecryptA (E : List Nat → List Nat) : Nat → List Nat → List Nat → List Nat
  | 0, _, _ => []
  | fuel + 1, reg, c =>
    if c = [] then []
    else
      (List.zipWith (· ^^^ ·) (c.take aesBlockSize) (E reg)) ++
        cfbDecryptA E fuel (c.take aesBlockSize) (c.drop aesBlockSize)

/-- CFB decryption of a whole message, with the recursion fuelled by the
message length. -/
def cfbDecrypt (E : List Nat → List Nat) (reg c : List Nat) : List Nat :=
  cfbDecryptA E c.length reg c

theorem cfbEncryptA_irrel (E : List Nat → List Nat) :
    ∀ n m reg p, p.length ≤ n → p.length ≤ m →
      cfbEncryptA E n reg p = cfbEncryptA E m reg p := by
  intro n
  induction n with
  | zero =>
    intro m reg p hn _
    have hp : p = [] := by
      apply List.eq_nil_of_length_eq_zero; omega
    subst hp
    cases m <;> simp [cfbEncryptA]
  | succ n ih =>
    intro m reg p hn hm
    by_cases hp : p = []
    · subst hp
      cases m <;> simp [cfbEncryptA]
    · have hpos : 0 < p.length := List.length_pos.mpr hp
      cases m with
      | zero => omega
      | succ m =>
        simp only [cfbEncryptA, if_neg hp]
        rw [ih m _ (p.drop aesBlockSize) (by simp [aesBlockSize]; omega)
          (by simp [aesBlockSize]; omega)]

theorem cfbDecryptA_irrel (E : List Nat → List Nat) :
    ∀ n m reg c, c.length ≤ n → c.length ≤ m →
      cfbDecryptA E n reg c = cfbDecryptA E m reg c := by
  intro n
  induction n with
  | zero =>
    intro m reg c hn _
    have hc : c = [] := by
      apply List.eq_nil_of_length_eq_zero; omega
    subst hc
    cases m <;> simp [cfbDecryptA]
  | succ n ih =>
    intro m reg c hn hm
    by_cases hc : c = []
    · subst hc
      cases m <;> simp [cfbDecryptA]
    · have hpos : 0 < c.length := List.length_pos.mpr hc
      cases m with
      | zero => omega
      | succ m =>
        simp only [cfbDecryptA, if_neg hc]
        rw [ih m _ (c.drop aesBlockSize) (by simp [aesBlockSize]; omega)
          (by simp [aesBlockSize]; omega)]

theorem cfbEncrypt_nil (E : List Nat → List Nat) (reg : List Nat) :
    cfbEncrypt E reg [] = [] := rfl

theorem cfbDecrypt_nil (E : List Nat → List Nat) (reg : List Nat) :
    cfbDecrypt E reg [] = [] := rfl

theorem cfbEncrypt_cons (E : List Nat → List Nat) (reg p : List Nat)
    (h : p ≠ []) :
    cfbEncrypt E reg p =
      (List.zipWith (· ^^^ ·) (p.take aesBlockSize) (E reg)) ++
        cfbEncrypt E (List.zipWith (· ^^^ ·) (p.take aesBlockSize) (E reg))
          (p.drop aesBlockSize) := by
  have hpos : 0 < p.length := List.length_pos.mpr h
  obtain ⟨n, hn⟩ : ∃ n, p.length = n + 1 := ⟨p.length - 1, by omega⟩
  rw [cfbEncrypt, hn]
  simp only [cfbEncryptA, if_neg h]
  rw [cfbEncrypt,
    cfbEncryptA_irrel E n (p.drop aesBlockSize).length _ (p.drop aesBlockSize)
      (by simp [aesBlockSize]; omega) le_rfl]

theorem cfbDecrypt_cons (E : List Nat → List Nat) (reg c : List Nat)
    (h : c ≠ []) :
    cfbDecrypt E reg c =
      (List.zipWith (· ^^^ ·) (c.take aesBlockSize) (E reg)) ++
        cfbDecrypt E (c.take aesBlockSize) (c.drop aesBlockSize) := by
  have hpos : 0 < c.length := List.length_pos.mpr h
  obtain ⟨n, hn⟩ : ∃ n, c.length = n + 1 := ⟨c.length - 1, by omega⟩
  rw [cfbDecrypt, hn]
  simp only [cfbDecryptA, if_neg h]
  rw [cfbDecrypt,
    cfbDecryptA_irrel E n (c.drop aesBlockSize).length _ (c.drop aesBlockSize)
      (by simp [aesBlockSize]; omega) le_rfl]

theorem zipWith_xor_cancel (p o : List Nat) (h : p.length ≤ o.length) :
    List.zipWith (· ^^^ ·) (List.zipWith (· ^^^ ·) p o) o = p := by
  induction p generalizing o with
  | nil => simp
  | cons x xs ih =>
    cases o with
    | nil => simp at h
    | cons y ys =>
      simp only [List.zipWith_cons_cons, Nat.xor_cancel_right]
      exact congrArg _ (ih ys (by simpa using h))

theorem zipWith_xor_bytes (p o : List Nat) (hp : ∀ x ∈ p, x < 256)
    (ho : ∀ x ∈ o, x < 256) : ∀ x ∈ List.zipWith (· ^^^ ·) p o, x < 256 := by
  induction p generalizing o with
  | nil => simp
  | cons a as ih =>
    cases o with
    | nil => simp
    | cons b bs =>
      intro x hx
      rcases List.mem_cons.mp hx with hx | hx
      · subst hx
        calc a ^^^ b < 2 ^ 8 :=
              Nat.xor_lt_two_pow (hp a (by simp)) (ho b (by simp))
          _ = 256 := rfl
      · exact ih bs (fun y hy => hp y (by simp [hy]))
          (fun y hy => ho y (by simp [hy])) x hx

theorem cfbEncrypt_length_le (E : List Nat → List Nat)
    (hE : ∀ b, (E b).length = aesBlockSize) :
    ∀ n p reg, p.length ≤ n → (cfbEncrypt E reg p).length = p.length := by
  intro n
  induction n with
  | zero =>
    intro p reg hp
    have : p = [] := by
      apply List.eq_nil_of_length_eq_zero; omega
    subst this; rw [cfbEncrypt_nil]
  | succ n ih =>
    intro p reg hp
    by_cases hpe : p = []
    · subst hpe; rw [cfbEncrypt_nil]
    · rw [cfbEncrypt_cons E reg p hpe]
      have hpos : 0 < p.length := List.length_pos.mpr hpe
      have hrec := ih (p.drop aesBlockSize)
        (List.zipWith (· ^^^ ·) (p.take aesBlockSize) (E reg))
        (by simp [aesBlockSize]; omega)
      simp only [List.length_append, hrec, List.length_zipWith, hE,
        List.length_take, List.length_drop]
      omega

theorem cfbDecrypt_cfbEncrypt_le (E : List Nat → List Nat)
    (hE : ∀ b, (E b).length = aesBlockSize) :
    ∀ n p reg, p.length ≤ n → cfbDecrypt E reg (cfbEncrypt E reg p) = p := by
  intro n
  induction n with
  | zero =>
    intro p reg hp
    have : p = [] := by
      apply List.eq_nil_of_length_eq_zero; omega
    subst this; rw [cfbEncrypt_nil, cfbDecrypt_nil]
  | succ n ih =>
    intro p reg hp
    by_cases hpe : p = []
    · subst hpe; rw [cfbEncrypt_nil, cfbDecrypt_nil]
    · rw [cfbEncrypt_cons E reg p hpe]
      set c := List.zipWith (· ^^^ ·) (p.take aesBlockSize) (E reg) with hc
      have hpos : 0 < p.length := List.length_pos.mpr hpe
      have hcl : c.length = min p.length aesBlockSize := by
        simp [hc, List.length_zipWith, hE, Nat.min_comm]
      have hcpos : 0 < c.length := by
        rw [hcl]; simp only [aesBlockSize]; omega
      have hcne : c ++ cfbEncrypt E c (p.drop aesBlockSize) ≠ [] := by
        intro habs
        have hce : c = [] := (List.append_eq_nil.mp habs).1
        rw [hce] at hcpos
        simp at hcpos
      rw [cfbDecrypt_cons E reg _ hcne]
      rcases Nat.lt_or_ge p.length aesBlockSize with hlt | hge
      · have hdrop : p.drop aesBlockSize = [] := by
          apply List.eq_nil_of_length_eq_zero; simp; omega
        have henc : cfbEncrypt E c (p.drop aesBlockSize) = [] := by
          rw [hdrop, cfbEncrypt_nil]
        have hclen : c.length ≤ aesBlockSize := by omega
        have htk : (c ++ cfbEncrypt E c (p.drop aesBlockSize)).take aesBlockSize = c := by
          rw [henc]; simp [List.take_of_length_le hclen]
        have hdk : (c ++ cfbEncrypt E c (p.drop aesBlockSize)).drop aesBlockSize = [] := by
          rw [henc]; simp [List.drop_of_length_le hclen]
        rw [htk, hdk]
        have hpt : p.take aesBlockSize = p := List.take_of_length_le (by omega)
        have hcan : List.zipWith (· ^^^ ·) c (E reg) = p := by
          rw [hc, hpt]
          exact zipWith_xor_cancel p (E reg) (by rw [hE]; omega)
        simp [cfbDecrypt_nil, hcan]
      · have hclen : c.length = aesBlockSize := by omega
        have htk : (c ++ cfbEncrypt E c (p.drop aesBlockSize)).take aesBlockSize = c := by
          rw [List.take_append_of_le_length (by omega), List.take_of_length_le (by omega)]
        have hdk : (c ++ cfbEncrypt E c (p.drop aesBlockSize)).drop aesBlockSize
            = cfbEncrypt E c (p.drop aesBlockSize) := by
          rw [List.drop_append_of_le_length (by omega), List.drop_of_length_le (by omega)]
          simp
        rw [htk, hdk]
        have hfirst : List.zipWith (· ^^^ ·) c (E reg) = p.take aesBlockSize := by
          rw [hc]
          exact zipWith_xor_cancel _ (E reg)
            (by rw [hE, List.length_take]; omega)
        have hrest := ih (p.drop aesBlockSize) c (by simp [aesBlockSize]; omega)
        rw [hfirst, hrest, List.take_append_drop]

theorem cfbEncrypt_bytes (E : List Nat → List Nat)
    (hEb : ∀ b, ∀ x ∈ E b, x < 256) :
    ∀ n p reg, p.length ≤ n → (∀ x ∈ p, x < 256) →
      ∀ x ∈ cfbEncrypt E reg p, x < 256 := by
  intro n
  induction n with
  | zero =>
    intro p reg hp _
    have : p = [] := by
      apply List.eq_nil_of_length_eq_zero; omega
    subst this; rw [cfbEncrypt_nil]; simp
  | succ n ih =>
    intro p reg hp hpb x hx
    by_cases hpe : p = []
    · subst hpe; rw [cfbEncrypt_nil] at hx; simp at hx
    · rw [cfbEncrypt_cons E reg p hpe] at hx
      have hpos : 0 < p.length := List.length_pos.mpr hpe
      rcases List.mem_append.mp hx with hx | hx
      · exact zipWith_xor_bytes _ _
          (fun y hy => hpb y (List.mem_of_mem_take hy)) (hEb reg) x hx
      · exact ih (p.drop aesBlockSize) _
          (by simp [aesBlockSize]; omega)
          (fun y hy => hpb y (List.mem_of_mem_drop hy)) x hx

/-- Embedding of Go `text.Encrypt` (src/encrypt/encrypt.go, package text):
an empty value is `EmptyError`; otherwise the ciphertext is the random
16-byte IV followed by the CFB stream, hex-encoded.  `E` is the AES block
function obtained from `aes.NewCipher(key)` and `iv` the random IV read
from `rand.Reader`. -/
def textEncrypt (E : List Nat → List Nat) (iv value : List Nat) :
    Except Err (List Nat) :=
  if value = [] then .error .emptyText
  else .ok (hexEncode (iv ++ cfbEncrypt E iv value))

/-- Embedding of Go `text.Decrypt`: empty value is `EmptyError`; the value
is hex-decoded, must be at least one block long, the leading block is the
IV and the rest is CFB-decrypted. -/
def textDecrypt (E : List Nat → List Nat) (value : List Nat) :
    Except Err (List Nat) :=
  if value = [] then .error .emptyText
  else
    match hexDecode value with
    | none => .error .hexError
    | some ct =>
      if ct.length < aesBlockSize then .error .cipherLength
      else .ok (cfbDecrypt E (ct.take aesBlockSize) (ct.drop aesBlockSize))

/-- Claim C9: text encryption round-trips.  For every block function (every
32-byte key yields one) and every non-empty plaintext, decrypting the
ciphertext produced by `text.Encrypt` with the same key returns exactly the
original plaintext, and the hex-decoded ciphertext is exactly 16 bytes (the
prepended random IV) longer than the plaintext. -/
theorem c9_text_roundtrip (E : List Nat → List Nat) (iv plain : List Nat)
    (hE : ∀ b, (E b).length = aesBlockSize)
    (hEb : ∀ b, ∀ x ∈ E b, x < 256)
    (hiv : iv.length = aesBlockSize) (hivb : ∀ x ∈ iv, x < 256)
    (hp : plain ≠ []) (hpb : ∀ x ∈ plain, x < 256) :
    ∃ c, textEncrypt E iv plain = .ok c ∧ textDecrypt E c = .ok plain ∧
      ∃ raw, hexDecode c = some raw ∧ raw.length = plain.length + aesBlockSize := by
  set raw := iv ++ cfbEncrypt E iv plain with hraw
  have hrawb : ∀ x ∈ raw, x < 256 := by
    intro x hx
    rcases List.mem_append.mp hx with hx | hx
    · exact hivb x hx
    · exact cfbEncrypt_bytes E hEb plain.length plain iv le_rfl hpb x hx
  have hrawlen : raw.length = plain.length + aesBlockSize := by
    rw [hraw]
    simp only [List.length_append, hiv,
      cfbEncrypt_length_le E hE plain.length plain iv le_rfl]
    omega
  have hdec : hexDecode (hexEncode raw) = some raw := hexDecode_hexEncode raw hrawb
  refine ⟨hexEncode raw, ?_, ?_, raw, hdec, hrawlen⟩
  · rw [textEncrypt, if_neg hp]
  · have hcne : hexEncode raw ≠ [] := by
      intro habs
      have := congrArg List.length habs
      rw [hexEncode_length] at this
      simp [hrawlen, aesBlockSize] at this
    have hnotshort : ¬ raw.length < aesBlockSize := by omega
    have htk : raw.take aesBlockSize = iv := by
      rw [hraw, List.take_append_of_le_length (by omega), List.take_of_length_le (by omega)]
    have hdk : raw.drop aesBlockSize = cfbEncrypt E iv plain := by
      rw [hraw, List.drop_append_of_le_length (by omega), List.drop_of_length_le (by omega)]
      simp
    rw [textDecrypt, if_neg hcne, hdec]
    show (if raw.length < aesBlockSize then (Except.error Err.cipherLength : Except Err (List Nat))
      else Except.ok (cfbDecrypt E (raw.take aesBlockSize) (raw.drop aesBlockSize)))
        = Except.ok plain
    rw [if_neg hnotshort, htk, hdk,
      cfbDecrypt_cfbEncrypt_le E hE plain.length plain iv le_rfl]

/-- Witness for C9 at a concrete block function, IV and plaintext. -/
theorem c9_text_roundtrip_witness :
    ∃ c, textEncrypt (fun _ => List.replicate 16 7) (List.replicate 16 0) [1, 2, 3]
        = .ok c ∧
      textDecrypt (fun _ => List.replicate 16 7) c = .ok [1, 2, 3] ∧
      ∃ raw, hexDecode c = some raw ∧ raw.length = [1, 2, 3].length + aesBlockSize :=
  c9_text_roundtrip (fun _ => List.replicate 16 7) (List.replicate 16 0) [1, 2, 3]
    (fun _ => rfl)
    (fun _ x hx => by
      have := List.eq_of_mem_replicate hx
      omega)
    rfl
    (fun x hx => by
      have := List.eq_of_mem_replicate hx
      omega)
    (by decide)
    (by decide)

/-- Go constant `saltSize` (src/encrypt/encrypt.go): random salt length. -/
def saltSize : Nat := 128

/-- Go constant `pbkdf2Iter` (src/encrypt/encrypt.go): number of PBKDF2
iterations. -/
def pbkdf2Iter : Nat := 32768

/-- Go constant `aesKeyLength` (src/encrypt/encrypt.go): key length for
AES-256. -/
def aesKeyLength : Nat := 32

/-- Go constant `hashLength` (src/encrypt/encrypt.go): length of the stored
verifier. -/
def hashLength : Nat := 32

/-- Big-endian 32-bit block index, as appended to the salt by
`golang.org/x/crypto/pbkdf2`. -/
def be32 (n : Nat) : List Nat :=
  [n / 2 ^ 24 % 256, n / 2 ^ 16 % 256, n / 2 ^ 8 % 256, n % 256]

/-- One output block `T_i` of PBKDF2 (`golang.org/x/crypto/pbkdf2.Key`):
`U_1 = PRF(password, salt ‖ INT(i))`, `U_j = PRF(password, U_(j-1))`,
`T_i = U_1 ⊕ … ⊕ U_iter`.  `prf` is the HMAC-SHA3-512 pseudorandom
function keyed by the password. -/
def pbkdf2Block (prf : List Nat → List Nat → List Nat)
    (password salt : List Nat) (iter blockIdx : Nat) : List Nat :=
  let u1 := prf password (salt ++ be32 blockIdx)
  ((List.range (iter - 1)).foldl
    (fun st _ =>
      let u := prf password st.2
      (List.zipWith (· ^^^ ·) st.1 u, u))
    (u1, u1)).1

/-- Embedding of `pbkdf2.Key`: enough blocks to cover `keyLen`, truncated to
`keyLen` bytes.  The hash length is the PRF output size. -/
def pbkdf2Key (prf : List Nat → List Nat → List Nat)
    (password salt : List Nat) (iter keyLen : Nat) : List Nat :=
  let hLen := (prf password (salt ++ be32 1)).length
  let numBlocks := (keyLen + hLen - 1) / hLen
  (((List.range numBlocks).map
      (fun i => pbkdf2Block prf password salt iter (i + 1))).join).take keyLen

/-- Embedding of Go `encrypt.Key`: the secret key is
`pbkdf2.Key(secret, salt, pbkdf2Iter, aesKeyLength, sha3.New512)`, and the
stored verifier is `sha3.ShakeSum256(key ‖ salt)` truncated to
`hashLength` bytes.  `prf` abstracts the HMAC-SHA3-512 PRF and `shake`
abstracts the SHAKE-256 XOF with requested output length. -/
def Key (prf : List Nat → List Nat → List Nat)
    (shake : List Nat → Nat → List Nat)
    (secret salt : List Nat) : List Nat × List Nat :=
  let key := pbkdf2Key prf secret salt pbkdf2Iter aesKeyLength
  (key, shake (key ++ salt) hashLength)

theorem pbkdf2Block_length (prf : List Nat → List Nat → List Nat)
    (password salt : List Nat) (iter blockIdx : Nat)
    (hprf : ∀ p d, (prf p d).length = 64) :
    (pbkdf2Block prf password salt iter blockIdx).length = 64 := by
  rw [pbkdf2Block]
  have inv : ∀ (l : List Nat) (st : List Nat × List Nat), st.1.length = 64 →
      ((l.foldl (fun st _ =>
        let u := prf password st.2
        (List.zipWith (· ^^^ ·) st.1 u, u)) st).1).length = 64 := by
    intro l
    induction l with
    | nil => intro st h; exact h
    | cons a as ih =>
      intro st h
      apply ih
      simp [List.length_zipWith, h, hprf]
  exact inv _ _ (hprf _ _)

/-- Claim C8 counterexample: the hard-coded PBKDF2 iteration count of the
source is 32768, which is not greater than or equal to 65536. -/
theorem c8_iter_below_65536_cex : ¬ 65536 ≤ pbkdf2Iter := by decide

/-- Claim C8 (amended): the password-based key derivation produces a
32-byte key using a SHA-3-512 PRF (PRF output length 64 bytes) with the
fixed, hard-coded iteration count 32768 (which is below 65536). -/
theorem c8_key_length_and_iter (prf : List Nat → List Nat → List Nat)
    (shake : List Nat → Nat → List Nat) (secret salt : List Nat)
    (hprf : ∀ p d, (prf p d).length = 64) :
    (Key prf shake secret salt).1.length = aesKeyLength ∧ pbkdf2Iter = 32768 := by
  constructor
  · rw [Key]
    simp only [pbkdf2Key, hprf]
    have hnb : (aesKeyLength + 64 - 1) / 64 = 1 := by decide
    rw [hnb]
    have h1 : List.range 1 = [0] := rfl
    simp [h1, pbkdf2Block_length prf secret salt pbkdf2Iter 1 hprf, aesKeyLength]
  · rfl

/-- Witness for C8 at a concrete PRF, XOF, secret and salt. -/
theorem c8_key_length_and_iter_witness :
    ((Key (fun _ _ => List.replicate 64 0) (fun _ n => List.replicate n 0)
        [1] [2]).1.length = aesKeyLength ∧ pbkdf2Iter = 32768) :=
  c8_key_length_and_iter (fun _ _ => List.replicate 64 0)
    (fun _ n => List.replicate n 0) [1] [2] (fun _ _ => rfl)

/-- Go `encrypt.Msg`: hex-encoded salt, stored value (hex ciphertext for
text fields, blob path for files) and hex-encoded verifier. -/
structure Msg where
  salt : List Nat
  value : List Nat
  hash : List Nat
  deriving DecidableEq, Repr

/-- A key-derivation function abstracting Go `encrypt.Key`: from a secret
and a (decoded) salt it yields the session key and the verifier.  The
repository instantiates it with `Key prf shake`. -/
abbrev Kdf : Type := List Nat → List Nat → List Nat × List Nat

/-- An AES block-function family: from a session key, the forward block
function of `aes.NewCipher(key)`. -/
abbrev AesFam : Type := List Nat → List Nat → List Nat

/-- The blob-store contents: a map from file path to the (encrypted) bytes
on disk. -/
abbrev BlobFs : Type := List Nat → Option (List Nat)

/-- A destination writer for streamed file decryption (`io.Writer`); `none`
is the Go `nil` writer. -/
abbrev Dst : Type := Option (List Nat → Except Err Unit)

/-- Embedding of Go `encrypt.DecryptText`: decode salt and verifier from
hex, recompute `(key, hash)` with the KDF, compare the verifier
(`hmac.Equal`), then `text.Decrypt` the stored value with the session
key. -/
def DecryptText (kdf : Kdf) (aesE : AesFam) (secret : List Nat) (m : Msg) :
    Except Err (List Nat) :=
  match hexDecode m.salt with
  | none => .error .hexError
  | some byteSalt =>
    match hexDecode m.hash with
    | none => .error .hexError
    | some byteHash =>
      let kh := kdf secret byteSalt
      if kh.2 = byteHash then textDecrypt (aesE kh.1) m.value
      else .error .secret

/-- Embedding of the OFB keystream cipher used for files: the register
starts at the all-zero IV, each keystream block is the AES encryption of
the previous keystream block, XORed into the data (encryption and
decryption are the same operation). -/
def ofbCryptA (E : List Nat → List Nat) : Nat → List Nat → List Nat → List Nat
  | 0, _, _ => []
  | fuel + 1, reg, data =>
    if data = [] then []
    else
      (List.zipWith (· ^^^ ·) (data.take aesBlockSize) (E reg)) ++
        ofbCryptA E fuel (E reg) (data.drop aesBlockSize)

/-- OFB stream applied to a whole message, fuelled by the message
length. -/
def ofbCrypt (E : List Nat → List Nat) (reg data : List Nat) : List Nat :=
  ofbCryptA E data.length reg data

/-- Modelled from the spec: the `encrypt` package revision used by
src/unnamed/part_017 exposes `DecryptFile(secret, m, dst)` (the variant in
src/encrypt/encrypt.go has an older signature), which per spec section 4.1
recomputes the verifier from the password and the stored salt, compares it
with the stored verifier (mismatch is the wrong-secret error), opens the
blob at `m.Value` (the file path) and streams it through the OFB cipher
with an all-zero IV.  The decrypted bytes are returned for the caller to
write to `dst`. -/
def DecryptFile (kdf : Kdf) (aesE : AesFam) (fs : BlobFs) (secret : List Nat)
    (m : Msg) : Except Err (List Nat) :=
  match hexDecode m.salt with
  | none => .error .hexError
  | some byteSalt =>
    match hexDecode m.hash with
    | none => .error .hexError
    | some byteHash =>
      let kh := kdf secret byteSalt
      if kh.2 = byteHash then
        match fs m.value with
        | none => .error .blobMissing
        | some content =>
          .ok (ofbCrypt (aesE kh.1) (List.replicate aesBlockSize 0) content)
      else .error .secret

/-- Go `db.Item` (src/unnamed/part_017), restricted to the persisted
fields: the `storage` table row.  Counters are `Int` because the SQL
`UPDATE` can drive them negative. -/
structure Item where
  id : Nat
  key : List Nat
  text : List Nat
  fileMeta : List Nat
  filePath : List Nat
  countText : Int
  countMeta : Int
  countFile : Int
  hashText : List Nat
  hashMeta : List Nat
  hashFile : List Nat
  saltText : List Nat
  saltMeta : List Nat
  saltFile : List Nat
  created : Nat
  updated : Nat
  expired : Nat
  deriving DecidableEq, Repr

/-- Go `db.FlagText` (bit 0 of `DecryptFlag`). -/
def FlagText : Nat := 1

/-- Go `db.FlagMeta` (bit 1 of `DecryptFlag`). -/
def FlagMeta : Nat := 2

/-- Go `db.FlagFile` (bit 2 of `DecryptFlag`). -/
def FlagFile : Nat := 4

/-- Go `db.flagSlice` (src/unnamed/part_017 line 35), verbatim: the array
is `[3]DecryptFlag(FlagText, FlagMeta, FlagMeta)` — `FlagMeta` twice and
`FlagFile` never. -/
def flagSlice : List Nat := [FlagText, FlagMeta, FlagMeta]

/-- Go `(*Item).decryptText`: skip when the stored text is empty, else
`encrypt.DecryptText` on `(SaltText, Text, HashText)` and replace the text
with the plaintext. -/
def itemDecryptText (kdf : Kdf) (aesE : AesFam) (secret : List Nat)
    (item : Item) : Except Err Item :=
  if item.text = [] then .ok item
  else
    match DecryptText kdf aesE secret
        { salt := item.saltText, value := item.text, hash := item.hashText } with
    | .error e => .error e
    | .ok plain => .ok { item with text := plain }

/-- Go `(*Item).decryptFileMeta`: skip when the stored file metadata is
empty, else `encrypt.DecryptText` on `(SaltMeta, FileMeta, HashMeta)`. -/
def itemDecryptFileMeta (kdf : Kdf) (aesE : AesFam) (secret : List Nat)
    (item : Item) : Except Err Item :=
  if item.fileMeta = [] then .ok item
  else
    match DecryptText kdf aesE secret
        { salt := item.saltMeta, value := item.fileMeta, hash := item.hashMeta } with
    | .error e => .error e
    | .ok plain => .ok { item with fileMeta := plain }

/-- Go `(*Item).decryptFile`: skip when the stored file metadata is empty
or the destination writer is nil, else `encrypt.DecryptFile` on
`(SaltFile, FilePath, HashFile)`, writing the decrypted bytes to the
destination. -/
def itemDecryptFile (kdf : Kdf) (aesE : AesFam) (fs : BlobFs)
    (secret : List Nat) (dst : Dst) (item : Item) : Except Err Item :=
  if item.fileMeta = [] then .ok item
  else
    match dst with
    | none => .ok item
    | some w =>
      match DecryptFile kdf aesE fs secret
          { salt := item.saltFile, value := item.filePath, hash := item.hashFile } with
      | .error e => .error e
      | .ok bytes =>
        match w bytes with
        | .error e => .error e
        | .ok _ => .ok item

/-- Go `(*Item).Decrypt(secret, dst, flags, err)`: forward an incoming
error, then run the text, metadata and file decryption steps in this order
for the aspects selected in `flags`, short-circuiting on the first
error. -/
def ItemDecrypt (kdf : Kdf) (aesE : AesFam) (fs : BlobFs) (secret : List Nat)
    (dst : Dst) (flags : Nat) (item : Item) (e : Option Err) : Except Err Item :=
  match e with
  | some err => .error err
  | none =>
    match (if flags &&& FlagText ≠ 0
        then itemDecryptText kdf aesE secret item else .ok item) with
    | .error e1 => .error e1
    | .ok it1 =>
      match (if flags &&& FlagMeta ≠ 0
          then itemDecryptFileMeta kdf aesE secret it1 else .ok it1) with
      | .error e2 => .error e2
      | .ok it2 =>
        if flags &&& FlagFile ≠ 0
        then itemDecryptFile kdf aesE fs secret dst it2 else .ok it2

/-- Go `(*Item).validate(flags, err)` (src/unnamed/part_017 lines
274-286): forward an incoming error; fail with `ErrNoAttempts` when any
aspect selected in `flags` has a counter below one. -/
def validate (flags : Nat) (item : Item) (e : Option Err) : Option Err :=
  match e with
  | some err => some err
  | none =>
    if (flags &&& FlagText ≠ 0 ∧ item.countText < 1)
        ∨ (flags &&& FlagMeta ≠ 0 ∧ item.countMeta < 1)
        ∨ (flags &&& FlagFile ≠ 0 ∧ item.countFile < 1)
    then some .noAttempts
    else none

/-- Go `(*Item).read`: `SELECT ... WHERE key=? AND expired>=? AND
((count_text>0) OR (count_file>0))` with the current time; `QueryRow`
yields the first matching row or `sql.ErrNoRows`. -/
def itemRead (storage : List Item) (now : Nat) (key : List Nat) :
    Except Err Item :=
  match storage.find? (fun r =>
      decide (r.key = key) && decide (now ≤ r.expired) &&
        (decide (0 < r.countText) || decide (0 < r.countFile))) with
  | none => .error .noRows
  | some r => .ok r

/-- The `counters` map built by Go `(*Item).decrement`: a map from flag to
delta, filled by iterating over `flagSlice`; a missing key reads as 0. -/
def counterMap (flags : Nat) : Nat → Nat :=
  flagSlice.foldl
    (fun m fv =>
      if flags &&& fv ≠ 0 then (fun k => if k = fv then 1 else m k) else m)
    (fun _ => 0)

/-- Go `(*Item).decrement` (src/unnamed/part_017 lines 288-329): forward
an incoming error; `UPDATE storage SET count_text=count_text-?,
count_meta=count_meta-?, count_file=count_file-?, updated=now WHERE id=?`
with the deltas from `counterMap`; `ErrDecrement` unless exactly one row
was affected; finally decrement the in-memory counters of the aspects in
`flags`. -/
def decrement (storage : List Item) (now : Nat) (item : Item) (flags : Nat)
    (e : Option Err) : Except Err (List Item × Item) :=
  match e with
  | some err => .error err
  | none =>
    let dText : Int := counterMap flags FlagText
    let dMeta : Int := counterMap flags FlagMeta
    let dFile : Int := counterMap flags FlagFile
    let affected := (storage.filter (fun r => decide (r.id = item.id))).length
    let storage' := storage.map (fun r =>
      if r.id = item.id then
        { r with
          countText := r.countText - dText,
          countMeta := r.countMeta - dMeta,
          countFile := r.countFile - dFile,
          updated := now }
      else r)
    if affected ≠ 1 then .error .decrementFailed
    else
      .ok (storage',
        { item with
          countText := item.countText - (if flags &&& FlagText ≠ 0 then 1 else 0),
          countMeta := item.countMeta - (if flags &&& FlagMeta ≠ 0 then 1 else 0),
          countFile := item.countFile - (if flags &&& FlagFile ≠ 0 then 1 else 0) })

/-- Go `db.InTransaction` (src/db/db.go lines 16-35): run `f` against the
store; on error roll back (the store is unchanged and the error is
returned), otherwise commit the new store. -/
def InTransaction {α : Type} (storage : List Item)
    (f : List Item → Except Err (α × List Item)) :
    Except Err α × List Item :=
  match f storage with
  | .ok (a, s') => (.ok a, s')
  | .error e => (.error e, storage)

/-- Go `db.Read` (src/unnamed/part_017 lines 345-359): inside one
transaction, read the row by key, validate the counters for `flags`,
decrypt the requested aspects, and decrement; the error of each step is
threaded into the next. -/
def Read (kdf : Kdf) (aesE : AesFam) (fs : BlobFs) (storage : List Item)
    (now : Nat) (key password : List Nat) (dst : Dst) (flags : Nat) :
    Except Err Item × List Item :=
  InTransaction storage (fun s =>
    match itemRead s now key with
    | .error e => .error e
    | .ok item0 =>
      match ItemDecrypt kdf aesE fs password dst flags item0
          (validate flags item0 none) with
      | .error e => .error e
      | .ok item1 =>
        match decrement s now item1 flags none with
        | .error e => .error e
        | .ok (s', item2) => .ok (item2, s'))

theorem counterMap_flagText (flags : Nat) :
    counterMap flags FlagText = if flags &&& FlagText ≠ 0 then 1 else 0 := by
  have e1 : ¬ (FlagText = FlagMeta) := by decide
  by_cases h1 : flags &&& FlagText = 0 <;>
    by_cases h2 : flags &&& FlagMeta = 0 <;>
      simp [counterMap, flagSlice, h1, h2, e1]

theorem counterMap_flagMeta (flags : Nat) :
    counterMap flags FlagMeta = if flags &&& FlagMeta ≠ 0 then 1 else 0 := by
  have e1 : ¬ (FlagMeta = FlagText) := by decide
  by_cases h1 : flags &&& FlagText = 0 <;>
    by_cases h2 : flags &&& FlagMeta = 0 <;>
      simp [counterMap, flagSlice, h1, h2, e1]

theorem counterMap_flagFile (flags : Nat) : counterMap flags FlagFile = 0 := by
  have e1 : ¬ (FlagFile = FlagText) := by decide
  have e2 : ¬ (FlagFile = FlagMeta) := by decide
  by_cases h1 : flags &&& FlagText = 0 <;>
    by_cases h2 : flags &&& FlagMeta = 0 <;>
      simp [counterMap, flagSlice, h1, h2, e1, e2]

/-- The concrete stored row used to exhibit the missing `count_file`
decrement: a file-only item with three file reads left. -/
def c1row : Item :=
  { id := 1, key := [10], text := [], fileMeta := [5], filePath := [7],
    countText := 0, countMeta := 3, countFile := 3,
    hashText := [], hashMeta := [48, 49], hashFile := [48, 49],
    saltText := [], saltMeta := [48, 48], saltFile := [48, 48],
    created := 0, updated := 0, expired := 9 }

/-- Claim C1: evaluation of `decrement` at the failing input
`flags = FlagFile`.  Because `flagSlice` lists `FlagMeta` twice and
`FlagFile` never, the `counters` map leaves every delta at zero, so the
`UPDATE` leaves `count_file` at 3 in the stored row (only `updated`
changes), while the in-memory item is nevertheless decremented to 2 —
contradicting the claim that a read with `FlagFile` set decreases
`count_file` by one in the database. -/
theorem c1_decrement_file_flag_eval :
    decrement [c1row] 4 c1row FlagFile none
      = .ok ([{ c1row with updated := 4 }], { c1row with countFile := 2 }) := by
  rfl

/-- Claim C10: aspects whose stored field is empty are skipped entirely by
`Item.Decrypt`: when every aspect selected in `flags` has an empty stored
field (`Text` for the text aspect, `FileMeta` for the metadata and file
aspects), decryption succeeds for every supplied password, returns the item
unchanged, and no wrong-secret error can arise. -/
theorem c10_decrypt_empty_skip (kdf : Kdf) (aesE : AesFam) (fs : BlobFs)
    (secret : List Nat) (dst : Dst) (flags : Nat) (item : Item)
    (hT : flags &&& FlagText ≠ 0 → item.text = [])
    (hM : flags &&& FlagMeta ≠ 0 → item.fileMeta = [])
    (hF : flags &&& FlagFile ≠ 0 → item.fileMeta = []) :
    ItemDecrypt kdf aesE fs secret dst flags item none = .ok item := by
  have s1 : (if flags &&& FlagText ≠ 0
      then itemDecryptText kdf aesE secret item else .ok item) = .ok item := by
    by_cases h1 : flags &&& FlagText ≠ 0
    · rw [if_pos h1, itemDecryptText, if_pos (hT h1)]
    · rw [if_neg h1]
  have s2 : (if flags &&& FlagMeta ≠ 0
      then itemDecryptFileMeta kdf aesE secret item else .ok item) = .ok item := by
    by_cases h2 : flags &&& FlagMeta ≠ 0
    · rw [if_pos h2, itemDecryptFileMeta, if_pos (hM h2)]
    · rw [if_neg h2]
  have s3 : (if flags &&& FlagFile ≠ 0
      then itemDecryptFile kdf aesE fs secret dst item else .ok item) = .ok item := by
    by_cases h3 : flags &&& FlagFile ≠ 0
    · rw [if_pos h3, itemDecryptFile.eq_def, if_pos (hF h3)]
    · rw [if_neg h3]
  simp only [ItemDecrypt, s1, s2, s3]

/-- A concrete item with no stored text and no stored file metadata, used
as the C10 witness input. -/
def c10item : Item :=
  { id := 2, key := [1], text := [], fileMeta := [], filePath := [],
    countText := 1, countMeta := 1, countFile := 1,
    hashText := [], hashMeta := [], hashFile := [],
    saltText := [], saltMeta := [], saltFile := [],
    created := 0, updated := 0, expired := 9 }

/-- Witness for C10 at a concrete password and an item whose selected
aspects are all empty. -/
theorem c10_decrypt_empty_skip_witness :
    ItemDecrypt (fun _ s => ([], s)) (fun _ b => b) (fun _ => none) [9] none 7
      c10item none = .ok c10item :=
  c10_decrypt_empty_skip _ _ _ _ _ _ _
    (fun _ => rfl) (fun _ => rfl) (fun _ => rfl)

/-- The `count_text` and `count_file` columns of a stored row, used to
state which counters a read leaves unchanged. -/
def countsTextFile (r : Item) : Int × Int :=
  (r.countText, r.countFile)

/-- An aspect requested in `flags` whose password verifier is actually
checked by `Item.Decrypt`: text or metadata with a non-empty stored field,
or the file aspect with a non-empty stored metadata field and a non-nil
destination writer. -/
def checkedAspect (flags : Nat) (dst : Dst) (item : Item) : Prop :=
  (flags &&& FlagText ≠ 0 ∧ item.text ≠ [])
  ∨ (flags &&& FlagMeta ≠ 0 ∧ item.fileMeta ≠ [])
  ∨ (flags &&& FlagFile ≠ 0 ∧ item.fileMeta ≠ [] ∧ dst ≠ none)

theorem DecryptText_mismatch (kdf : Kdf) (aesE : AesFam) (password : List Nat)
    (m : Msg) (bs bh : List Nat) (hbs : hexDecode m.salt = some bs)
    (hbh : hexDecode m.hash = some bh) (hne : (kdf password bs).2 ≠ bh) :
    DecryptText kdf aesE password m = .error .secret := by
  simp only [DecryptText, hbs, hbh, if_neg hne]

theorem DecryptFile_mismatch (kdf : Kdf) (aesE : AesFam) (fs : BlobFs)
    (password : List Nat) (m : Msg) (bs bh : List Nat)
    (hbs : hexDecode m.salt = some bs) (hbh : hexDecode m.hash = some bh)
    (hne : (kdf password bs).2 ≠ bh) :
    DecryptFile kdf aesE fs password m = .error .secret := by
  simp only [DecryptFile, hbs, hbh, if_neg hne]

theorem itemDecryptText_mismatch (kdf : Kdf) (aesE : AesFam)
    (password : List Nat) (item : Item) (bs bh : List Nat)
    (hne : item.text ≠ []) (hbs : hexDecode item.saltText = some bs)
    (hbh : hexDecode item.hashText = some bh)
    (hmm : (kdf password bs).2 ≠ bh) :
    itemDecryptText kdf aesE password item = .error .secret := by
  rw [itemDecryptText, if_neg hne,
    DecryptText_mismatch kdf aesE password _ bs bh hbs hbh hmm]

theorem itemDecryptFileMeta_mismatch (kdf : Kdf) (aesE : AesFam)
    (password : List Nat) (item : Item) (bs bh : List Nat)
    (hne : item.fileMeta ≠ []) (hbs : hexDecode item.saltMeta = some bs)
    (hbh : hexDecode item.hashMeta = some bh)
    (hmm : (kdf password bs).2 ≠ bh) :
    itemDecryptFileMeta kdf aesE password item = .error .secret := by
  rw [itemDecryptFileMeta, if_neg hne,
    DecryptText_mismatch kdf aesE password _ bs bh hbs hbh hmm]

theorem itemDecryptFile_mismatch (kdf : Kdf) (aesE : AesFam) (fs : BlobFs)
    (password : List Nat) (w : List Nat → Except Err Unit) (item : Item)
    (bs bh : List Nat) (hne : item.fileMeta ≠ [])
    (hbs : hexDecode item.saltFile = some bs)
    (hbh : hexDecode item.hashFile = some bh)
    (hmm : (kdf password bs).2 ≠ bh) :
    itemDecryptFile kdf aesE fs password (some w) item = .error .secret := by
  rw [itemDecryptFile.eq_def, if_neg hne]
  simp only [DecryptFile_mismatch kdf aesE fs password
    { salt := item.saltFile, value := item.filePath, hash := item.hashFile }
    bs bh hbs hbh hmm]

theorem itemDecryptText_skip (kdf : Kdf) (aesE : AesFam) (password : List Nat)
    (item : Item) (h : item.text = []) :
    itemDecryptText kdf aesE password item = .ok item := by
  rw [itemDecryptText, if_pos h]

theorem itemDecryptFileMeta_skip (kdf : Kdf) (aesE : AesFam)
    (password : List Nat) (item : Item) (h : item.fileMeta = []) :
    itemDecryptFileMeta kdf aesE password item = .ok item := by
  rw [itemDecryptFileMeta, if_pos h]

theorem itemDecryptFile_skip (kdf : Kdf) (aesE : AesFam) (fs : BlobFs)
    (password : List Nat) (dst : Dst) (item : Item)
    (h : item.fileMeta = [] ∨ dst = none) :
    itemDecryptFile kdf aesE fs password dst item = .ok item := by
  rcases h with h | h
  · rw [itemDecryptFile.eq_def, if_pos h]
  · subst h
    rw [itemDecryptFile.eq_def]
    by_cases hm : item.fileMeta = []
    · rw [if_pos hm]
    · rw [if_neg hm]

theorem ItemDecrypt_eq (kdf : Kdf) (aesE : AesFam) (fs : BlobFs)
    (password : List Nat) (dst : Dst) (flags : Nat) (item : Item) :
    ItemDecrypt kdf aesE fs password dst flags item none =
      match (if flags &&& FlagText ≠ 0
          then itemDecryptText kdf aesE password item else .ok item) with
      | .error e1 => .error e1
      | .ok it1 =>
        match (if flags &&& FlagMeta ≠ 0
            then itemDecryptFileMeta kdf aesE password it1 else .ok it1) with
        | .error e2 => .error e2
        | .ok it2 =>
          if flags &&& FlagFile ≠ 0
          then itemDecryptFile kdf aesE fs password dst it2 else .ok it2 := rfl

theorem validate_none_not (flags : Nat) (item : Item)
    (h : validate flags item none = none) :
    ¬(flags &&& FlagText ≠ 0 ∧ item.countText < 1) ∧
    ¬(flags &&& FlagMeta ≠ 0 ∧ item.countMeta < 1) ∧
    ¬(flags &&& FlagFile ≠ 0 ∧ item.countFile < 1) := by
  by_cases hc : (flags &&& FlagText ≠ 0 ∧ item.countText < 1)
      ∨ (flags &&& FlagMeta ≠ 0 ∧ item.countMeta < 1)
      ∨ (flags &&& FlagFile ≠ 0 ∧ item.countFile < 1)
  · simp only [validate, if_pos hc] at h
    exact Option.noConfusion h
  · exact ⟨fun hA => hc (Or.inl hA), fun hB => hc (Or.inr (Or.inl hB)),
      fun hC => hc (Or.inr (Or.inr hC))⟩

theorem decrement_ok (storage : List Item) (now : Nat) (item : Item)
    (flags : Nat)
    (hid : (storage.filter (fun r => decide (r.id = item.id))).length = 1) :
    decrement storage now item flags none = .ok
      (storage.map (fun r =>
        if r.id = item.id then
          { r with
            countText := r.countText - (counterMap flags FlagText : Int),
            countMeta := r.countMeta - (counterMap flags FlagMeta : Int),
            countFile := r.countFile - (counterMap flags FlagFile : Int),
            updated := now }
        else r),
      { item with
        countText := item.countText - (if flags &&& FlagText ≠ 0 then 1 else 0),
        countMeta := item.countMeta - (if flags &&& FlagMeta ≠ 0 then 1 else 0),
        countFile := item.countFile - (if flags &&& FlagFile ≠ 0 then 1 else 0) }) := by
  simp [decrement, hid]

theorem Read_step_err (kdf : Kdf) (aesE : AesFam) (fs : BlobFs)
    (storage : List Item) (now : Nat) (key password : List Nat) (dst : Dst)
    (flags : Nat) (item : Item) (e : Err)
    (hfind : itemRead storage now key = .ok item)
    (hval : validate flags item none = none)
    (hdec : ItemDecrypt kdf aesE fs password dst flags item none = .error e) :
    Read kdf aesE fs storage now key password dst flags = (.error e, storage) := by
  simp only [Read, InTransaction, hfind, hval, hdec]

theorem Read_step_ok (kdf : Kdf) (aesE : AesFam) (fs : BlobFs)
    (storage : List Item) (now : Nat) (key password : List Nat) (dst : Dst)
    (flags : Nat) (item item1 item2 : Item) (s' : List Item)
    (hfind : itemRead storage now key = .ok item)
    (hval : validate flags item none = none)
    (hdec : ItemDecrypt kdf aesE fs password dst flags item none = .ok item1)
    (hdecr : decrement storage now item1 flags none = .ok (s', item2)) :
    Read kdf aesE fs storage now key password dst flags = (.ok item2, s') := by
  simp only [Read, InTransaction, hfind, hval, hdec, hdecr]

/-- Claim C3 (amended): wrong password is non-consuming, for the aspects
the read actually verifies.  Suppose the row read for `key` passes the
counter validation, every non-empty aspect's stored verifier differs from
the one derived from the supplied password, an item without text has a
zero text counter (the creation invariant of `validateUpload`), and ids
are unique.  If some requested aspect is actually checked (text or
metadata non-empty, or file non-empty with a destination writer), then
`Read` returns the wrong-secret error and the stored rows are exactly as
before (the transaction rolled back, the decrement never executed).
Otherwise — requests that only name aspects the item does not have, or
the file aspect with a nil writer — `Read` succeeds without any password
verification, and the stored `count_text` and `count_file` of every row
are still unchanged (`count_meta` can be consumed when the metadata
aspect is requested on an item without metadata). -/
theorem c3_wrong_secret_non_consuming (kdf : Kdf) (aesE : AesFam)
    (fs : BlobFs) (storage : List Item) (now : Nat)
    (key password : List Nat) (dst : Dst) (flags : Nat) (item : Item)
    (hfind : itemRead storage now key = .ok item)
    (hval : validate flags item none = none)
    (hmT : item.text ≠ [] → ∃ bs bh, hexDecode item.saltText = some bs ∧
      hexDecode item.hashText = some bh ∧ (kdf password bs).2 ≠ bh)
    (hmM : item.fileMeta ≠ [] → ∃ bs bh, hexDecode item.saltMeta = some bs ∧
      hexDecode item.hashMeta = some bh ∧ (kdf password bs).2 ≠ bh)
    (hmF : item.fileMeta ≠ [] → ∃ bs bh, hexDecode item.saltFile = some bs ∧
      hexDecode item.hashFile = some bh ∧ (kdf password bs).2 ≠ bh)
    (hwfT : item.text = [] → item.countText < 1)
    (hid : (storage.filter (fun r => decide (r.id = item.id))).length = 1) :
    (checkedAspect flags dst item →
      Read kdf aesE fs storage now key password dst flags
        = (.error .secret, storage)) ∧
    (¬ checkedAspect flags dst item →
      ∃ it, (Read kdf aesE fs storage now key password dst flags).1 = .ok it ∧
        ((Read kdf aesE fs storage now key password dst flags).2).map
            countsTextFile
          = storage.map countsTextFile) := by
  have s1or : (if flags &&& FlagText ≠ 0
      then itemDecryptText kdf aesE password item else .ok item) = .ok item ∨
      (if flags &&& FlagText ≠ 0
      then itemDecryptText kdf aesE password item else .ok item)
        = .error .secret := by
    by_cases hb1 : flags &&& FlagText ≠ 0
    · by_cases ht : item.text = []
      · exact Or.inl (by rw [if_pos hb1, itemDecryptText_skip kdf aesE password item ht])
      · obtain ⟨bs, bh, hbs, hbh, hne⟩ := hmT ht
        exact Or.inr (by
          rw [if_pos hb1,
            itemDecryptText_mismatch kdf aesE password item bs bh ht hbs hbh hne])
    · exact Or.inl (if_neg hb1)
  have s2or : (if flags &&& FlagMeta ≠ 0
      then itemDecryptFileMeta kdf aesE password item else .ok item) = .ok item ∨
      (if flags &&& FlagMeta ≠ 0
      then itemDecryptFileMeta kdf aesE password item else .ok item)
        = .error .secret := by
    by_cases hb2 : flags &&& FlagMeta ≠ 0
    · by_cases hm : item.fileMeta = []
      · exact Or.inl (by
          rw [if_pos hb2, itemDecryptFileMeta_skip kdf aesE password item hm])
      · obtain ⟨bs, bh, hbs, hbh, hne⟩ := hmM hm
        exact Or.inr (by
          rw [if_pos hb2,
            itemDecryptFileMeta_mismatch kdf aesE password item bs bh hm hbs hbh hne])
    · exact Or.inl (if_neg hb2)
  constructor
  · intro hch
    have herr : ItemDecrypt kdf aesE fs password dst flags item none
        = .error .secret := by
      rcases hch with ⟨hb1, ht⟩ | ⟨hb2, hm⟩ | ⟨hb4, hm, hd⟩
      · obtain ⟨bs, bh, hbs, hbh, hne⟩ := hmT ht
        have s1 : (if flags &&& FlagText ≠ 0
            then itemDecryptText kdf aesE password item else .ok item)
              = .error .secret := by
          rw [if_pos hb1,
            itemDecryptText_mismatch kdf aesE password item bs bh ht hbs hbh hne]
        simp only [ItemDecrypt_eq, s1]
      · obtain ⟨bs, bh, hbs, hbh, hne⟩ := hmM hm
        have s2 : (if flags &&& FlagMeta ≠ 0
            then itemDecryptFileMeta kdf aesE password item else .ok item)
              = .error .secret := by
          rw [if_pos hb2,
            itemDecryptFileMeta_mismatch kdf aesE password item bs bh hm hbs hbh hne]
        rcases s1or with s1 | s1
        · simp only [ItemDecrypt_eq, s1, s2]
        · simp only [ItemDecrypt_eq, s1]
      · obtain ⟨w, hw⟩ := Option.ne_none_iff_exists.mp hd
        obtain ⟨bs, bh, hbs, hbh, hne⟩ := hmF hm
        have s3 : (if flags &&& FlagFile ≠ 0
            then itemDecryptFile kdf aesE fs password dst item else .ok item)
              = .error .secret := by
          rw [if_pos hb4, ← hw,
            itemDecryptFile_mismatch kdf aesE fs password w item bs bh hm hbs hbh hne]
        rcases s1or with s1 | s1
        · rcases s2or with s2 | s2
          · simp only [ItemDecrypt_eq, s1, s2, s3]
          · simp only [ItemDecrypt_eq, s1, s2]
        · simp only [ItemDecrypt_eq, s1]
    rw [Read_step_err kdf aesE fs storage now key password dst flags item
      Err.secret hfind hval herr]
  · intro hnc
    obtain ⟨hv1, hv2, hv3⟩ := validate_none_not flags item hval
    have hb1 : ¬ flags &&& FlagText ≠ 0 := by
      intro hb1
      have ht : item.text ≠ [] := fun he => hv1 ⟨hb1, hwfT he⟩
      exact hnc (Or.inl ⟨hb1, ht⟩)
    have s2 : (if flags &&& FlagMeta ≠ 0
        then itemDecryptFileMeta kdf aesE password item else .ok item)
          = .ok item := by
      by_cases hb2 : flags &&& FlagMeta ≠ 0
      · have hm : item.fileMeta = [] := by
          by_contra hm
          exact hnc (Or.inr (Or.inl ⟨hb2, hm⟩))
        rw [if_pos hb2, itemDecryptFileMeta_skip kdf aesE password item hm]
      · exact if_neg hb2
    have s3 : (if flags &&& FlagFile ≠ 0
        then itemDecryptFile kdf aesE fs password dst item else .ok item)
          = .ok item := by
      by_cases hb4 : flags &&& FlagFile ≠ 0
      · rw [if_pos hb4]
        apply itemDecryptFile_skip
        by_cases hm : item.fileMeta = []
        · exact Or.inl hm
        · by_cases hd : dst = none
          · exact Or.inr hd
          · exact absurd (Or.inr (Or.inr ⟨hb4, hm, hd⟩)) hnc
      · exact if_neg hb4
    have hdec : ItemDecrypt kdf aesE fs password dst flags item none
        = .ok item := by
      simp only [ItemDecrypt_eq, if_neg hb1, s2, s3]
    have hdT : counterMap flags FlagText = 0 := by
      rw [counterMap_flagText, if_neg hb1]
    have hdF : counterMap flags FlagFile = 0 := counterMap_flagFile flags
    have hread := Read_step_ok kdf aesE fs storage now key password dst flags
      item item _ _ hfind hval hdec (decrement_ok storage now item flags hid)
    refine ⟨{ item with
        countText := item.countText - (if flags &&& FlagText ≠ 0 then 1 else 0),
        countMeta := item.countMeta - (if flags &&& FlagMeta ≠ 0 then 1 else 0),
        countFile := item.countFile - (if flags &&& FlagFile ≠ 0 then 1 else 0) },
      ?_, ?_⟩
    · rw [hread]
    · rw [hread]
      simp only [List.map_map]
      apply List.map_congr_left
      intro r _
      by_cases hr : r.id = item.id
      · simp [countsTextFile, hr, hdT, hdF]
      · simp [countsTextFile, hr]

/-- A stored file-only row (non-empty file metadata and file verifier, one
file read left), used to exhibit the unverified file-only read. -/
def c3row : Item :=
  { id := 1, key := [11], text := [], fileMeta := [33], filePath := [44],
    countText := 0, countMeta := 1, countFile := 1,
    hashText := [], hashMeta := [48, 49], hashFile := [48, 49],
    saltText := [], saltMeta := [48, 48], saltFile := [48, 48],
    created := 0, updated := 0, expired := 9 }

/-- Claim C3 counterexample: a `Read` with `FlagFile` only and a nil
destination writer, against a stored item whose file verifier does not
match the verifier derived from the supplied password (the KDF returns
verifier `[0]` while the stored one decodes to `[1]`).  `Item.decryptFile`
skips verification because the writer is nil, so `Read` succeeds instead of
returning the wrong-secret error — refuting the claim as stated.  (The
stored counters still do not change; only `updated` does.) -/
theorem c3_read_skips_file_check_cex :
    (FlagFile &&& FlagFile ≠ 0 ∧ c3row.fileMeta ≠ [] ∧
      hexDecode c3row.saltFile = some [0] ∧
      hexDecode c3row.hashFile = some [1] ∧
      (((fun _ _ => ([], [0])) : Kdf) [99] [0]).2 ≠ [1]) ∧
    Read ((fun _ _ => ([], [0])) : Kdf) (fun _ b => b) (fun _ => none)
        [c3row] 5 c3row.key [99] none FlagFile
      = (.ok { c3row with countFile := 0 }, [{ c3row with updated := 5 }]) :=
  ⟨⟨by decide, by decide, rfl, rfl, by decide⟩, rfl⟩

/-- A stored text-only row as `validateUpload` creates it with `times = 1`
(counters `(1, 1, 0)`, non-empty text ciphertext, empty file fields),
whose stored text verifier decodes to `[1]`; the C3 witness input for the
wrong-password-on-a-text-note case. -/
def c3wrow : Item :=
  { id := 3, key := [12], text := [50], fileMeta := [], filePath := [],
    countText := 1, countMeta := 1, countFile := 0,
    hashText := [48, 49], hashMeta := [], hashFile := [],
    saltText := [48, 48], saltMeta := [], saltFile := [],
    created := 0, updated := 0, expired := 9 }

/-- Witness for C3 (amended): the `/api/text` flag set `FlagText|FlagMeta`
against a text-only item, with a password whose derived verifier
mismatches the stored text verifier. -/
theorem c3_wrong_secret_non_consuming_witness :
    (checkedAspect (FlagText ||| FlagMeta) none c3wrow →
      Read ((fun _ _ => ([], [0])) : Kdf) (fun _ b => b) (fun _ => none)
          [c3wrow] 5 c3wrow.key [99] none (FlagText ||| FlagMeta)
        = (.error .secret, [c3wrow])) ∧
    (¬ checkedAspect (FlagText ||| FlagMeta) none c3wrow →
      ∃ it, (Read ((fun _ _ => ([], [0])) : Kdf) (fun _ b => b) (fun _ => none)
          [c3wrow] 5 c3wrow.key [99] none (FlagText ||| FlagMeta)).1
            = .ok it ∧
        ((Read ((fun _ _ => ([], [0])) : Kdf) (fun _ b => b) (fun _ => none)
          [c3wrow] 5 c3wrow.key [99] none (FlagText ||| FlagMeta)).2).map
            countsTextFile
          = [c3wrow].map countsTextFile) :=
  c3_wrong_secret_non_consuming _ _ _ _ _ _ _ _ _ _
    rfl rfl
    (fun _ => ⟨[0], [1], rfl, rfl, by decide⟩)
    (fun h => absurd rfl h)
    (fun h => absurd rfl h)
    (fun h => absurd h (by decide))
    rfl

/-- Go `handle.FileMeta` (src/handle/file.go lines 16-21): the structured
file metadata `name, size, content_type` carried as JSON in the encrypted
`file_meta` column. -/
structure FileMetaR where
  name : List Nat
  size : Int
  contentType : List Nat
  deriving DecidableEq, Repr

/-- Character codes of the default content type
"application/octet-stream". -/
def octetStream : List Nat := "application/octet-stream".data.map Char.toNat

/-- Go `FileMeta.ResponseContentType`: the stored content type, or the
octet-stream default when empty. -/
def responseContentType (f : FileMetaR) : List Nat :=
  if f.contentType = [] then octetStream else f.contentType

/-- Go `FileMeta.ResponseContentDisposition`:
`attachment; filename="<name>"`. -/
def responseContentDisposition (f : FileMetaR) : List Nat :=
  ("attachment; filename=".data.map Char.toNat) ++ [34] ++ f.name ++ [34]

/-- Go `FileMeta.ResponseContentLength`: the decimal string of the file
size. -/
def responseContentLength (f : FileMetaR) : List Nat :=
  (toString f.size).data.map Char.toNat

/-- Go `handle.validatePassKey` (src/handle/handle.go lines 61-77): POST
only, password and key non-empty, key a parsable UUID; the result is the
HTTP status of the validation error, if any.  `uuidValid` abstracts
`uuid.Parse`. -/
def validatePassKey (uuidValid : List Nat → Bool) (isPost : Bool)
    (password key : List Nat) : Option Nat :=
  if ¬isPost then some 405
  else if password = [] then some 400
  else if key = [] then some 400
  else if ¬uuidValid key then some 400
  else none

/-- Response of the `/file` handler: a bare status code (error paths and
the 204 path write only headers), an error returned to the framework, or a
200 response carrying the three headers and the result of streaming the
decrypted file bytes. -/
inductive FileResp where
  | code (n : Nat)
  | failed (e : Err)
  | okFile (ct cd cl : List Nat) (stream : Except Err Unit)
  deriving Repr

/-- Embedding of Go `handle.fileHandler` (src/handle/file.go lines
61-98): validate password and key; `db.Read` with `FlagMeta|FlagFile` and
a nil writer (only the metadata is decrypted inside the transaction);
`ErrNoAttempts` and `sql.ErrNoRows` map to 404, `encrypt.ErrSecret` to
400, other errors are returned; then — as written in the source — if the
decrypted `FileMeta` is NON-empty the handler answers 204 No Content,
otherwise it decodes the metadata, sets the three headers and streams the
file by decrypting once more with `FlagFile` and the response writer. -/
def fileHandler (uuidValid : List Nat → Bool)
    (decodeMeta : List Nat → Option FileMetaR) (kdf : Kdf) (aesE : AesFam)
    (fs : BlobFs) (storage : List Item) (now : Nat) (isPost : Bool)
    (password key : List Nat) (w : List Nat → Except Err Unit) :
    FileResp × List Item :=
  match validatePassKey uuidValid isPost password key with
  | some code => (.code code, storage)
  | none =>
    match Read kdf aesE fs storage now key password none (FlagMeta ||| FlagFile) with
    | (.error e, s) =>
      if e = .noAttempts ∨ e = .noRows then (.code 404, s)
      else if e = .secret then (.code 400, s)
      else (.failed e, s)
    | (.ok item, s) =>
      if item.fileMeta ≠ [] then (.code 204, s)
      else
        match decodeMeta item.fileMeta with
        | none => (.failed .metaDecode, s)
        | some fm =>
          (.okFile (responseContentType fm) (responseContentDisposition fm)
            (responseContentLength fm)
            (match ItemDecrypt kdf aesE fs password (some w) FlagFile item none with
              | .error e => .error e
              | .ok _ => .ok ()), s)

/-- Response of the `/api/text` handler: a bare status code, an error
returned to the framework, or the 200 JSON body `text` plus optional file
metadata. -/
inductive TextResp where
  | code (n : Nat)
  | failed (e : Err)
  | okJson (text : List Nat) (file : Option FileMetaR)
  deriving DecidableEq, Repr

/-- Embedding of Go `handle.textAPIHandler` (src/handle/api.go lines
151-183): validate password and key; `db.Read` with `FlagText|FlagMeta`
and a nil writer; `ErrNoAttempts` and `sql.ErrNoRows` map to 404 "not
found", `encrypt.ErrSecret` to 400, other errors are returned; on success
the decrypted metadata (when present) is decoded and the JSON body carries
the decrypted text and the metadata. -/
def textAPIHandler (uuidValid : List Nat → Bool)
    (decodeMeta : List Nat → Option FileMetaR) (kdf : Kdf) (aesE : AesFam)
    (fs : BlobFs) (storage : List Item) (now : Nat) (isPost : Bool)
    (password key : List Nat) : TextResp × List Item :=
  match validatePassKey uuidValid isPost password key with
  | some code => (.code code, storage)
  | none =>
    match Read kdf aesE fs storage now key password none (FlagText ||| FlagMeta) with
    | (.error e, s) =>
      if e = .noAttempts ∨ e = .noRows then (.code 404, s)
      else if e = .secret then (.code 400, s)
      else (.failed e, s)
    | (.ok item, s) =>
      if item.fileMeta ≠ [] then
        match decodeMeta item.fileMeta with
        | none => (.failed .metaDecode, s)
        | some fm => (.okJson item.text (some fm), s)
      else (.okJson item.text none, s)

/-- Go `validateUpload`'s counter initialisation (src/handle/upload.go
lines 117-139): text-only items get `(times, 0)`, file-only items
`(0, times)`, items with both `(times, times)`; `CountMeta` is always
`CountText + CountFile`. -/
def uploadCounters (text fileMeta : List Nat) (times : Nat) : Int × Int × Int :=
  let p : Int × Int :=
    if fileMeta = [] then ((times : Int), 0)
    else if text = [] then (0, (times : Int))
    else ((times : Int), (times : Int))
  (p.1, p.1 + p.2, p.2)

/-- A stored item that has a file (non-empty encrypted metadata whose
verifier matches the concrete KDF below, one metadata and one file read
left), used to evaluate the `/file` handler.  The metadata ciphertext is
34 hex digits, decoding to a 17-byte ciphertext whose CFB decryption under
the all-zero block function is the single byte 0. -/
def c2row : Item :=
  { id := 4, key := [13], text := [], fileMeta := List.replicate 34 48,
    filePath := [44], countText := 0, countMeta := 1, countFile := 1,
    hashText := [], hashMeta := [48, 49], hashFile := [48, 49],
    saltText := [], saltMeta := [48, 48], saltFile := [48, 48],
    created := 0, updated := 0, expired := 9 }

/-- Claim C2: evaluation of `fileHandler` at the failing input — a stored
item with a file, correct password, counters and TTL permitting a file
read.  Because the source tests `item.FileMeta != ""` (instead of
`== ""`), the handler answers 204 No Content for exactly the items that
DO have a file, never reaching the 200-with-headers path; the read's
decrement is nevertheless committed. -/
theorem c2_fileHandler_204_eval :
    c2row.fileMeta ≠ [] ∧
    fileHandler (fun _ => true) (fun _ => none) ((fun _ _ => ([], [1])) : Kdf)
        (fun _ _ => List.replicate 16 0) (fun _ => none)
        [c2row] 5 true [99] c2row.key (fun _ => .ok ())
      = (.code 204, [{ c2row with countMeta := 0, updated := 5 }]) :=
  ⟨by decide, rfl⟩

/-- The stored file item used for the C4 counterexample run. -/
def c4row : Item :=
  { id := 5, key := [15], text := [], fileMeta := List.replicate 34 48,
    filePath := [46], countText := 0, countMeta := 1, countFile := 1,
    hashText := [], hashMeta := [48, 49], hashFile := [48, 49],
    saltText := [], saltMeta := [48, 48], saltFile := [48, 48],
    created := 0, updated := 0, expired := 9 }

/-- Claim C4 counterexample: a complete `/file` handler run on a stored
file item with the correct password in which the returned store already
has the metadata counter decremented (committed by `db.Read`), while the
response is 204 No Content and not a single file byte was streamed — so
counters ARE committed as decremented without the file bytes having been
streamed, refuting the claim that file streaming happens inside the same
transaction as the decrement. -/
theorem c4_decrement_committed_before_stream_cex :
    fileHandler (fun _ => true) (fun _ => none) ((fun _ _ => ([], [1])) : Kdf)
        (fun _ _ => List.replicate 16 0) (fun _ => none)
        [c4row] 6 true [99] c4row.key (fun _ => .ok ())
      = (.code 204, [{ c4row with countMeta := 0, updated := 6 }]) ∧
    ({ c4row with countMeta := 0, updated := 6 } : Item).countMeta
      ≠ c4row.countMeta :=
  ⟨rfl, by decide⟩

/-- Claim C4 (amended): in `fileHandler`, `db.Read` is called with a nil
writer, so only the metadata is decrypted inside the database transaction
and the decrement of the metadata counter is committed there; no file
byte is streamed within the transaction, and in this revision the success
path for a file item answers 204 No Content with the decrement already
committed (a failure of any later streaming could not restore the
counters). -/
theorem c4_read_commits_before_streaming (uuidValid : List Nat → Bool)
    (decodeMeta : List Nat → Option FileMetaR) (kdf : Kdf) (aesE : AesFam)
    (fs : BlobFs) (storage : List Item) (now : Nat)
    (password key : List Nat) (w : List Nat → Except Err Unit)
    (item item1 : Item)
    (hvp : validatePassKey uuidValid true password key = none)
    (hfind : itemRead storage now key = .ok item)
    (hval : validate (FlagMeta ||| FlagFile) item none = none)
    (hdec : ItemDecrypt kdf aesE fs password none (FlagMeta ||| FlagFile)
      item none = .ok item1)
    (hm : item1.fileMeta ≠ [])
    (hid : (storage.filter (fun r => decide (r.id = item1.id))).length = 1) :
    fileHandler uuidValid decodeMeta kdf aesE fs storage now true password key w
      = (.code 204,
        storage.map (fun r =>
          if r.id = item1.id
          then { r with countMeta := r.countMeta - 1, updated := now }
          else r)) := by
  have hread := Read_step_ok kdf aesE fs storage now key password none
    (FlagMeta ||| FlagFile) item item1 _ _ hfind hval hdec
    (decrement_ok storage now item1 (FlagMeta ||| FlagFile) hid)
  simp only [fileHandler, hvp, hread]
  have hm2 : ({ item1 with
      countText := item1.countText -
        (if (FlagMeta ||| FlagFile) &&& FlagText ≠ 0 then 1 else 0),
      countMeta := item1.countMeta -
        (if (FlagMeta ||| FlagFile) &&& FlagMeta ≠ 0 then 1 else 0),
      countFile := item1.countFile -
        (if (FlagMeta ||| FlagFile) &&& FlagFile ≠ 0 then 1 else 0) } :
      Item).fileMeta ≠ [] := hm
  rw [if_pos hm2]
  have hmapeq : storage.map (fun r =>
      if r.id = item1.id then
        { r with
          countText := r.countText -
            (counterMap (FlagMeta ||| FlagFile) FlagText : Int),
          countMeta := r.countMeta -
            (counterMap (FlagMeta ||| FlagFile) FlagMeta : Int),
          countFile := r.countFile -
            (counterMap (FlagMeta ||| FlagFile) FlagFile : Int),
          updated := now }
      else r)
      = storage.map (fun r =>
        if r.id = item1.id
        then { r with countMeta := r.countMeta - 1, updated := now }
        else r) := by
    apply List.map_congr_left
    intro r _
    have hdT : counterMap (FlagMeta ||| FlagFile) FlagText = 0 := rfl
    have hdM : counterMap (FlagMeta ||| FlagFile) FlagMeta = 1 := rfl
    have hdF : counterMap (FlagMeta ||| FlagFile) FlagFile = 0 := rfl
    by_cases hr : r.id = item1.id
    · simp [hr, hdT, hdM, hdF]
    · simp [hr]
  rw [hmapeq]

/-- A stored file item used as the C4 witness input. -/
def c4wrow : Item :=
  { id := 7, key := [16], text := [], fileMeta := List.replicate 34 48,
    filePath := [47], countText := 0, countMeta := 1, countFile := 1,
    hashText := [], hashMeta := [48, 49], hashFile := [48, 49],
    saltText := [], saltMeta := [48, 48], saltFile := [48, 48],
    created := 0, updated := 0, expired := 9 }

/-- Witness for C4 (amended) at a concrete store, KDF and block
function. -/
theorem c4_read_commits_before_streaming_witness :
    fileHandler (fun _ => true) (fun _ => none) ((fun _ _ => ([], [1])) : Kdf)
        (fun _ _ => List.replicate 16 0) (fun _ => none)
        [c4wrow] 8 true [99] c4wrow.key (fun _ => .ok ())
      = (.code 204,
        [c4wrow].map (fun r =>
          if r.id = ({ c4wrow with fileMeta := [0] } : Item).id
          then { r with countMeta := r.countMeta - 1, updated := 8 }
          else r)) :=
  c4_read_commits_before_streaming (fun _ => true) (fun _ => none)
    ((fun _ _ => ([], [1])) : Kdf) (fun _ _ => List.replicate 16 0)
    (fun _ => none) [c4wrow] 8 [99] c4wrow.key (fun _ => .ok ())
    c4wrow { c4wrow with fileMeta := [0] }
    rfl rfl rfl rfl (by decide) rfl

/-- The stored row produced by a file-only upload with `times = 1`: the
counters come from `uploadCounters` with empty text, so `count_text` is
zero while `count_meta` and `count_file` are one. -/
def c5row : Item :=
  { id := 6, key := [14], text := [], fileMeta := [77], filePath := [45],
    countText := (uploadCounters [] [77] 1).1,
    countMeta := (uploadCounters [] [77] 1).2.1,
    countFile := (uploadCounters [] [77] 1).2.2,
    hashText := [], hashMeta := [48, 49], hashFile := [48, 49],
    saltText := [], saltMeta := [48, 48], saltFile := [48, 48],
    created := 0, updated := 0, expired := 9 }

/-- Claim C5: evaluation of the `/api/text` handler at the failing input
— an item created with a file and no text (counters `(0, 1, 1)` from
`validateUpload`), queried with the correct key and password.  `db.Read`
requests `FlagText|FlagMeta`, `Item.validate` sees `FlagText` set with
`count_text = 0` and fails with `ErrNoAttempts`, and the handler answers
404 — not the claimed 200 with empty text and the file metadata. -/
theorem c5_textAPI_file_only_eval :
    uploadCounters [] [77] 1 = (0, 1, 1) ∧
    textAPIHandler (fun _ => true) (fun _ => some { name := [97], size := 5, contentType := [] })
        ((fun _ _ => ([], [1])) : Kdf) (fun _ _ => List.replicate 16 0)
        (fun _ => none) [c5row] 5 true [99] c5row.key
      = (.code 404, [c5row]) :=
  ⟨rfl, rfl⟩

/-- Go `cfg.Storage` (src/unnamed/part_020), restricted to the blob-store
capacity state: the configured maximum `Size` (in bytes after
`initLimits`), the live byte counter `limit`, and the blob directory
contents as `(path, size)` pairs. -/
structure Storage where
  size : Int
  limit : Int
  files : List (Nat × Int)
  deriving DecidableEq, Repr

/-- Go `(*Storage).Limit` (src/unnamed/part_020 lines 52-63): add `v` to
the live counter under the mutex; fail (storage full) when the new value
exceeds `Size`, leaving the counter unchanged. -/
def Storage.Limit (s : Storage) (v : Int) : Except Unit Storage :=
  if s.size < s.limit + v then .error ()
  else .ok { s with limit := s.limit + v }

/-- Total size of the files currently in the blob directory. -/
def sumSizes (files : List (Nat × Int)) : Int :=
  (files.map (fun f => f.2)).sum

/-- Go `(*Storage).initLimits` (src/unnamed/part_020 lines 66-83): convert
the configured megabytes to bytes and add every directory entry's size to
the live counter — the only cross-run reconciliation. -/
def Storage.initLimits (s : Storage) : Storage :=
  { s with size := s.size * 2 ^ 20, limit := s.limit + sumSizes s.files }

/-- The blob-store events that touch the capacity state: a completed
upload reserving `size` bytes for a new blob at `path` (reservation at
src/unnamed/part_009 line 88, blob written by `item.Encrypt` at line
158); an upload whose reservation succeeds but which is rejected
afterwards — the `Storage.Limit` call at line 88 precedes the TTL and
times checks at lines 117-127, and nothing releases the bytes on those
failure paths; and a reaper deletion of the blob at `path`
(src/db/db.go `deleteByDateOrCounters` → `deleteFiles` → `os.Remove`). -/
inductive BlobOp where
  | upload (path : Nat) (size : Int)
  | uploadFailed (size : Int)
  | reap (path : Nat)
  deriving DecidableEq, Repr

/-- One step of the blob-store capacity state: a completed upload reserves
the bytes via `Storage.Limit` and creates the file (a failed reservation
changes nothing); an upload rejected after its reservation keeps the
reserved bytes but creates no file — as in the source, which validates TTL
and times only after `Storage.Limit` and never releases; a reaper deletion
removes the file from the directory but — as in the source — releases
nothing from the live counter. -/
def blobStep (s : Storage) (op : BlobOp) : Storage :=
  match op with
  | .upload p sz =>
    match s.Limit sz with
    | .error _ => s
    | .ok s' => { s' with files := (p, sz) :: s'.files }
  | .uploadFailed sz =>
    match s.Limit sz with
    | .error _ => s
    | .ok s' => s'
  | .reap p => { s with files := s.files.filter (fun f => decide (f.1 ≠ p)) }

/-- A sequence of uploads and reaps applied to the blob store. -/
def blobRun (s : Storage) (ops : List BlobOp) : Storage :=
  ops.foldl blobStep s

/-- Bytes deleted from disk by one event: the sizes of the blobs a reap
removes. -/
def reapOf (s : Storage) : BlobOp → Int
  | .reap p => sumSizes (s.files.filter (fun f => decide (f.1 = p)))
  | _ => 0

/-- Bytes leaked by one event: the reservation kept by an upload that was
rejected after `Storage.Limit` accepted it. -/
def leakOf (s : Storage) : BlobOp → Int
  | .uploadFailed sz => if s.size < s.limit + sz then 0 else sz
  | _ => 0

/-- The total number of bytes deleted from disk by the reap events of a
run (computed against the evolving directory contents). -/
def reapedBytes : Storage → List BlobOp → Int
  | _, [] => 0
  | s, op :: rest => reapOf s op + reapedBytes (blobStep s op) rest

/-- The total number of bytes reserved by uploads of a run that were
rejected after their reservation (computed against the evolving state). -/
def leakedBytes : Storage → List BlobOp → Int
  | _, [] => 0
  | s, op :: rest => leakOf s op + leakedBytes (blobStep s op) rest

theorem sumSizes_cons (a : Nat × Int) (l : List (Nat × Int)) :
    sumSizes (a :: l) = a.2 + sumSizes l := by
  simp [sumSizes]

theorem sumSizes_filter_split (p : Nat) (l : List (Nat × Int)) :
    sumSizes (l.filter (fun f => decide (f.1 ≠ p)))
      + sumSizes (l.filter (fun f => decide (f.1 = p))) = sumSizes l := by
  induction l with
  | nil => rfl
  | cons a as ih =>
    rw [List.filter_cons, List.filter_cons]
    by_cases ha : a.1 = p
    · rw [if_neg (by simp [ha]), if_pos (by simp [ha]), sumSizes_cons,
        sumSizes_cons]
      omega
    · rw [if_pos (by simp [ha]), if_neg (by simp [ha]), sumSizes_cons,
        sumSizes_cons]
      omega

theorem blobStep_invariant (s : Storage) (op : BlobOp) :
    (blobStep s op).limit - sumSizes (blobStep s op).files
      = s.limit - sumSizes s.files + reapOf s op + leakOf s op := by
  cases op with
  | upload p sz =>
    by_cases hf : s.size < s.limit + sz
    · simp [blobStep, Storage.Limit, hf, reapOf, leakOf]
    · simp [blobStep, Storage.Limit, hf, reapOf, leakOf, sumSizes]
      omega
  | uploadFailed sz =>
    by_cases hf : s.size < s.limit + sz
    · simp [blobStep, Storage.Limit, hf, reapOf, leakOf]
    · simp [blobStep, Storage.Limit, hf, reapOf, leakOf]
      omega
  | reap p =>
    have h := sumSizes_filter_split p s.files
    simp only [blobStep, reapOf, leakOf]
    omega

theorem blobRun_limit (ops : List BlobOp) :
    ∀ s : Storage, (blobRun s ops).limit - sumSizes (blobRun s ops).files
      = s.limit - sumSizes s.files + reapedBytes s ops + leakedBytes s ops := by
  induction ops with
  | nil => intro s; simp [blobRun, reapedBytes, leakedBytes]
  | cons op rest ih =>
    intro s
    have hstep := blobStep_invariant s op
    have hrest := ih (blobStep s op)
    simp only [blobRun, List.foldl_cons, reapedBytes, leakedBytes] at *
    omega

/-- Claim C6 counterexample: starting from an empty directory with the
counter at zero (its initialized value), one accepted 5-byte upload
followed by one reaper deletion of that blob leaves the live counter at 5
while the directory holds 0 bytes — the counter does not equal the sum of
the on-disk sizes, because the reaper path never releases reserved
bytes. -/
theorem c6_counter_not_released_cex :
    (blobRun { size := 100, limit := 0, files := [] }
        [.upload 1 5, .reap 1]).limit = 5 ∧
    sumSizes (blobRun { size := 100, limit := 0, files := [] }
        [.upload 1 5, .reap 1]).files = 0 ∧
    (blobRun { size := 100, limit := 0, files := [] }
        [.upload 1 5, .reap 1]).limit
      ≠ sumSizes (blobRun { size := 100, limit := 0, files := [] }
        [.upload 1 5, .reap 1]).files :=
  ⟨rfl, rfl, by decide⟩

/-- Claim C6 (amended): starting from a state whose live counter equals
the sum of the on-disk sizes (as `initLimits` establishes at startup),
after any sequence of uploads and reaps the live counter equals the sum
of the current on-disk sizes PLUS every byte the reaper has deleted PLUS
every byte reserved by an upload that was rejected after its reservation:
accepted reservations are accounted, but neither reaper deletions nor
post-reservation upload failures (the reservation precedes the TTL and
times checks) ever release bytes, so the counter exceeds the on-disk
total by exactly the reaped and leaked amounts. -/
theorem c6_blob_counter_invariant (s : Storage) (ops : List BlobOp)
    (hinit : s.limit = sumSizes s.files) :
    (blobRun s ops).limit
      = sumSizes (blobRun s ops).files + reapedBytes s ops
        + leakedBytes s ops := by
  have h := blobRun_limit ops s
  omega

/-- Witness for C6 (amended) at a concrete startup state and operation
sequence containing a reap, a completed upload and a post-reservation
upload failure. -/
theorem c6_blob_counter_invariant_witness :
    (blobRun { size := 100, limit := 7, files := [(1, 3), (2, 4)] }
        [.reap 1, .upload 3 5, .uploadFailed 2]).limit
      = sumSizes (blobRun { size := 100, limit := 7, files := [(1, 3), (2, 4)] }
          [.reap 1, .upload 3 5, .uploadFailed 2]).files
        + reapedBytes { size := 100, limit := 7, files := [(1, 3), (2, 4)] }
            [.reap 1, .upload 3 5, .uploadFailed 2]
        + leakedBytes { size := 100, limit := 7, files := [(1, 3), (2, 4)] }
            [.reap 1, .upload 3 5, .uploadFailed 2] :=
  c6_blob_counter_invariant _ _ (by decide)

/-- Embedding of the status-code path of Go `handle.validateUpload`
(src/unnamed/part_009 lines 66-99 and following): non-POST is 405; a file
reserves its size via `Storage.Limit` and a failed reservation answers
`vd.code`, which is still `http.StatusBadRequest` (400); an upload with
neither file nor text, a bad TTL or a bad times value answer 400; else
201. -/
def validateUploadCode (st : Storage) (isPost : Bool) (file : Option Int)
    (text : List Nat) (ttlOk timesOk : Bool) : Nat × Storage :=
  if ¬isPost then (405, st)
  else
    match file with
    | none =>
      if text = [] then (400, st)
      else if ¬ttlOk then (400, st)
      else if ¬timesOk then (400, st)
      else (201, st)
    | some sz =>
      match st.Limit sz with
      | .error _ => (400, st)
      | .ok st' =>
        if ¬ttlOk then (400, st')
        else if ¬timesOk then (400, st')
        else (201, st')

/-- Claim C7 counterexample: an upload whose file size pushes the reserved
bytes past the maximum is rejected with status 400 (Bad Request), not 507
(Insufficient Storage). -/
theorem c7_storage_full_code_cex :
    validateUploadCode { size := 10, limit := 0, files := [] } true (some 11)
        [] true true
      = (400, { size := 10, limit := 0, files := [] }) ∧ (400 : Nat) ≠ 507 :=
  ⟨rfl, by decide⟩

/-- Claim C7 (amended): when an upload carries a file whose size would
push the blob store's reserved byte count past the configured maximum, the
reservation fails and the upload is rejected — with HTTP status 400 (Bad
Request, message "no space in file storage"), not 507. -/
theorem c7_storage_full_code (st : Storage) (sz : Int) (text : List Nat)
    (ttlOk timesOk : Bool) (hfull : st.size < st.limit + sz) :
    validateUploadCode st true (some sz) text ttlOk timesOk = (400, st) := by
  simp [validateUploadCode, Storage.Limit, hfull]

/-- Witness for C7 (amended) at a concrete storage state and file size. -/
theorem c7_storage_full_code_witness :
    validateUploadCode { size := 10, limit := 6, files := [] } true (some 5)
        [3] true true
      = (400, { size := 10, limit := 6, files := [] }) :=
  c7_storage_full_code _ _ _ _ _ (by decide)

end Send
